import Mathlib

/-!
Verification development for the naukriBandhu job-matching core
(`src/lib/firestore.ts`, `src/app/dashboard/supervisor/post-job/page.tsx`).

The TypeScript source is shallowly embedded below.  Firestore collections
become lists inside an explicit `Store` record; every exported async
function becomes a pure Lean function threading the store and an explicit
clock value `now`.  ECMAScript `Date` values are modelled as a day number
(days since the Unix epoch, 1970-01-01, a Thursday) together with the
milliseconds elapsed within that day; an unparseable date (JS "Invalid
Date", whose fields are NaN) is the marker `JSDateV.invalid`, and every
comparison against it is `false`, exactly as NaN comparisons are in JS.
Timestamps such as `expiresAt` (an ISO string in the source, always
produced by `Date.prototype.toISOString` and consumed by `new Date(...)`)
are modelled directly as the instant they denote, in epoch milliseconds.
-/

namespace NaukriBandhu

/-! ## Dates: model of the ECMAScript `Date` values used by the source -/

/-- Milliseconds in a civil day. -/
def msPerDay : Int := 86400000

/-- A valid JS `Date`: days since the Unix epoch plus milliseconds within
the day.  The source only ever builds dates from date-only strings
(midnight) and mutates them with `setDate` / `setHours`. -/
structure JSDate where
  day : Int
  ms : Int
deriving DecidableEq, Repr

/-- Epoch-millisecond value of a date (JS `valueOf`, the value used by
`<`, `<=`, `>=` comparisons between `Date` objects). -/
def JSDate.toMillis (d : JSDate) : Int := d.day * msPerDay + d.ms

/-- A JS `Date` that may be an Invalid Date (all fields NaN). -/
inductive JSDateV where
  | valid (d : JSDate)
  | invalid
deriving DecidableEq, Repr

/-- JS `Date.prototype.getDay`: 0 = Sunday .. 6 = Saturday.  The Unix
epoch day 0 was a Thursday, hence the offset 4. -/
def jsWeekday (day : Int) : Int := (day + 4) % 7

/-- Days from civil date (y, m, d) to the Unix epoch (Howard Hinnant's
`days_from_civil` algorithm); models how the JS engine resolves a
calendar date to an epoch day. -/
def daysFromCivil (y m d : Int) : Int :=
  let y' := if m ≤ 2 then y - 1 else y
  let era := (if y' ≥ 0 then y' else y' - 399) / 400
  let yoe := y' - era * 400
  let mp := if m > 2 then m - 3 else m + 9
  let doy := (153 * mp + 2) / 5 + d - 1
  let doe := yoe * 365 + yoe / 4 - yoe / 100 + doy
  era * 146097 + doe - 719468

/-- Day-of-month of an epoch day (`civil_from_days`, extracting the day
component); models JS `Date.prototype.getDate`. -/
def dayOfMonthFromDay (z₀ : Int) : Int :=
  let z := z₀ + 719468
  let era := (if z ≥ 0 then z else z - 146096) / 146097
  let doe := z - era * 146097
  let yoe := (doe - doe / 1460 + doe / 36524 - doe / 146096) / 365
  let doy := doe - (365 * yoe + yoe / 4 - yoe / 100)
  let mp := (5 * doy + 2) / 153
  doy - (153 * mp + 2) / 5 + 1

/-- JS `Date.prototype.setDate n`: re-reads the day-of-month and moves
the date by `n - getDate()` days (months roll over automatically in JS;
in the day-number model this is plain day arithmetic). -/
def setDateTo (dt : JSDate) (n : Int) : JSDate :=
  { day := dt.day + (n - dayOfMonthFromDay dt.day), ms := dt.ms }

/-- JS `setHours(0, 0, 0, 0)`. -/
def atStartOfDay (dt : JSDate) : JSDate := { day := dt.day, ms := 0 }

/-- JS `setHours(23, 59, 59, 999)`. -/
def atEndOfDay (dt : JSDate) : JSDate := { day := dt.day, ms := 86399999 }

/-! ### Parsing (model of `new Date(string)`)

The application only ever feeds `new Date` the date-only ISO form
`YYYY-MM-DD` (HTML `<input type="date">` values stored in
`requiredDate` / `jobDate`).  The parser below implements exactly the
ECMAScript date-only ISO parse for that form: four digit year, two digit
month 01..12, two digit day within the month, separated by dashes, read
as midnight; every other string is Invalid Date. -/

/-- Numeric value of a decimal digit character, `none` otherwise. -/
def digitVal (c : Char) : Option Nat :=
  if 48 ≤ c.toNat ∧ c.toNat ≤ 57 then some (c.toNat - 48) else none

/-- Reads a digit string left to right accumulating its value. -/
def digitsToNatAux : List Char → Nat → Option Nat
  | [], acc => some acc
  | c :: cs, acc =>
    match digitVal c with
    | some v => digitsToNatAux cs (acc * 10 + v)
    | none => none

/-- Value of a non-empty all-digit character list. -/
def digitsToNat : List Char → Option Nat
  | [] => none
  | c :: cs => digitsToNatAux (c :: cs) 0

/-- Splits a character list at each dash. -/
def splitDashAux : List Char → List Char → List (List Char)
  | [], acc => [acc.reverse]
  | c :: cs, acc =>
    if c = '-' then acc.reverse :: splitDashAux cs []
    else splitDashAux cs (c :: acc)

def splitDash (cs : List Char) : List (List Char) := splitDashAux cs []

/-- Gregorian leap-year test. -/
def isLeapYear (y : Int) : Bool := (y % 4 == 0 && y % 100 != 0) || y % 400 == 0

/-- Length in days of month `m` of year `y`. -/
def daysInMonth (y m : Int) : Int :=
  if m = 2 then (if isLeapYear y then 29 else 28)
  else if m = 4 ∨ m = 6 ∨ m = 9 ∨ m = 11 then 30
  else 31

/-- Model of `new Date(s)` for the date-only ISO format the application
uses: returns the epoch day number, or `none` for Invalid Date. -/
def parseDateOnly (s : String) : Option Int :=
  match splitDash s.data with
  | [ys, ms, ds] =>
    if ys.length = 4 ∧ ms.length = 2 ∧ ds.length = 2 then
      match digitsToNat ys, digitsToNat ms, digitsToNat ds with
      | some y, some m, some d =>
        if 1 ≤ (m : Int) ∧ (m : Int) ≤ 12 ∧ 1 ≤ (d : Int) ∧
            (d : Int) ≤ daysInMonth (y : Int) (m : Int) then
          some (daysFromCivil (y : Int) (m : Int) (d : Int))
        else none
      | _, _, _ => none
    else none
  | _ => none

/-- Result record of `getWeekBounds` (`{ start, end }` in the source). -/
structure WeekBounds where
  start : JSDateV
  endW : JSDateV
deriving DecidableEq, Repr

/-- Embedding of `getWeekBounds` (src/lib/firestore.ts lines 169-185).
On an unparseable string every `Date` field is NaN, the arithmetic
propagates NaN, and the function still returns normally with Invalid
Date bounds; no error is raised anywhere in the function. -/
def getWeekBounds (dateString : String) : WeekBounds :=
  match parseDateOnly dateString with
  | none => { start := .invalid, endW := .invalid }
  | some dayNum =>
    let date : JSDate := { day := dayNum, ms := 0 }
    let day := jsWeekday date.day
    let diff := dayOfMonthFromDay date.day - day + (if day = 0 then -6 else 1)
    let startOfWeek := atStartOfDay (setDateTo date diff)
    let endOfWeek := atEndOfDay (setDateTo startOfWeek (dayOfMonthFromDay startOfWeek.day + 6))
    { start := .valid startOfWeek, endW := .valid endOfWeek }

/-! ### Week-window arithmetic used by the proofs -/

/-- The Monday of the week containing epoch day `d`, written with the
offsets of spec 4.1: back 6 days from a Sunday, back `w - 1` days from
any other weekday `w`. -/
def mondayOf (d : Int) : Int :=
  d - (if jsWeekday d = 0 then 6 else jsWeekday d - 1)

theorem getWeekBounds_parse {s : String} {n : Int}
    (h : parseDateOnly s = some n) :
    getWeekBounds s =
      { start := .valid ⟨mondayOf n, 0⟩, endW := .valid ⟨mondayOf n + 6, 86399999⟩ } := by
  simp only [getWeekBounds, h, atStartOfDay, atEndOfDay, setDateTo, mondayOf, jsWeekday,
    WeekBounds.mk.injEq, JSDateV.valid.injEq, JSDate.mk.injEq]
  refine ⟨⟨?_, trivial⟩, ?_, trivial⟩ <;> split_ifs <;> omega

theorem jsWeekday_mondayOf (d : Int) : jsWeekday (mondayOf d) = 1 := by
  simp only [mondayOf, jsWeekday]
  split <;> omega

theorem jsWeekday_mondayOf_add_six (d : Int) : jsWeekday (mondayOf d + 6) = 0 := by
  simp only [mondayOf, jsWeekday]
  split <;> omega

theorem mondayOf_le_self (d : Int) : mondayOf d ≤ d ∧ d ≤ mondayOf d + 6 := by
  simp only [mondayOf, jsWeekday]
  split <;> omega

theorem mondayOf_eq_of_mem_window {d b : Int}
    (h1 : mondayOf d ≤ b) (h2 : b ≤ mondayOf d + 6) : mondayOf b = mondayOf d := by
  simp only [mondayOf, jsWeekday] at h1 h2 ⊢
  split_ifs at h1 h2 ⊢ <;> omega

/-! ## Data model (src/types, as used by src/lib/firestore.ts)

Status strings of the source become inductive types; constructors are
capitalised where the source word (`open`) is a Lean keyword:
`Open`/`Filled`/`Expired`/`Delisted` stand for the strings
`"open"`/`"filled"`/`"expired"`/`"delisted"`. -/

inductive WageType where
  | hourly
  | daily
deriving DecidableEq, Repr

inductive JobStatus where
  | Open
  | Filled
  | Expired
  | Delisted
deriving DecidableEq, Repr

inductive BookingStatus where
  | confirmed
  | cancelled
deriving DecidableEq, Repr

inductive AppStatus where
  | confirmed
  | rejected
deriving DecidableEq, Repr

structure SystemRates where
  minWagePerHour : Nat
  lastUpdated : Int
deriving DecidableEq, Repr

/-- A job posting (`JobListing`).  `expiresAt` is stored as an ISO string
in the source, always produced by `toISOString` and consumed through
`new Date(...)`; it is modelled as the epoch-millisecond instant it
denotes.  `createdAt` is the server timestamp in epoch milliseconds, or
`none` when absent (the source reads it as `createdAt?.toMillis?.() || 0`). -/
structure JobListing where
  id : String
  supervisorId : String
  title : String
  locationName : String
  description : String
  wageType : WageType
  wageAmount : Nat
  requiredDate : String
  durationHours : Nat
  laborersRequired : Nat
  laborersApplied : Nat
  status : JobStatus
  isListed : Bool
  expiresAt : Int
  createdAt : Option Int
deriving DecidableEq, Repr

structure JobApplication where
  jobId : String
  laborId : String
  supervisorId : String
  status : AppStatus
  appliedAt : Int
deriving DecidableEq, Repr

structure Booking where
  jobId : String
  laborId : String
  supervisorId : String
  jobTitle : String
  locationName : String
  jobDate : String
  durationHours : Nat
  wageAmount : Nat
  status : BookingStatus
  createdAt : Option Int
deriving DecidableEq, Repr

/-- The Firestore collections the core touches, plus the
`system_config/rates` singleton (absent when never seeded). -/
structure Store where
  jobs : List JobListing
  applications : List JobApplication
  bookings : List Booking
  systemRates : Option SystemRates
deriving DecidableEq, Repr

/-! ## System config -/

/-- Embedding of `getSystemRates` (src/lib/firestore.ts lines 66-77):
returns the stored singleton, or the built-in default
`{ minWagePerHour: 60, lastUpdated: new Date() }` when the document does
not exist.  `now` is the instant `new Date()` evaluates to. -/
def getSystemRates (st : Store) (now : Int) : SystemRates :=
  match st.systemRates with
  | some r => r
  | none => { minWagePerHour := 60, lastUpdated := now }

/-! ## Wage validation (src/app/dashboard/supervisor/post-job/page.tsx) -/

/-- Embedding of `calculateMinWageRequired` (post-job/page.tsx lines
33-44): `0` before the rates have loaded, the hourly floor for hourly
postings, `minWagePerHour * durationHours` for daily postings. -/
def calculateMinWageRequired (rates : Option SystemRates) (wageType : WageType)
    (durationHours : Nat) : Nat :=
  match rates with
  | none => 0
  | some r =>
    match wageType with
    | .hourly => r.minWagePerHour
    | .daily => r.minWagePerHour * durationHours

/-- Embedding of the wage gate in `handleSubmit` (post-job/page.tsx lines
63-71): the posting is accepted iff NOT `wageAmount < minRequired`. -/
def wageCheckPasses (wageAmount minRequired : Nat) : Bool :=
  !(wageAmount < minRequired)

/-! ## The 50-hour ledger -/

/-- JS comparison `start <= d && d <= end` on `Date` values: compares the
epoch-millisecond values, and is `false` whenever any operand is an
Invalid Date (NaN comparisons). -/
def dateInBounds (d : JSDateV) (b : WeekBounds) : Bool :=
  match d, b.start, b.endW with
  | .valid x, .valid s, .valid e =>
    decide (s.toMillis ≤ x.toMillis) && decide (x.toMillis ≤ e.toMillis)
  | _, _, _ => false

/-- `new Date(bk.jobDate)` for a booking record. -/
def parseBookDate (s : String) : JSDateV :=
  match parseDateOnly s with
  | some n => .valid ⟨n, 0⟩
  | none => .invalid

/-- Embedding of `getLaborWeeklyHours` (src/lib/firestore.ts lines
187-219): sums `durationHours` over the worker's confirmed bookings
whose `jobDate` falls inside `getWeekBounds targetDate`. -/
def getLaborWeeklyHours (st : Store) (laborId : String) (targetDate : String) : Nat :=
  let b := getWeekBounds targetDate
  ((st.bookings.filter (fun bk =>
      bk.laborId == laborId && bk.status == BookingStatus.confirmed &&
        dateInBounds (parseBookDate bk.jobDate) b)).map (·.durationHours)).sum

/-! ## Application logic -/

/-- Embedding of `hasAlreadyApplied` (src/lib/firestore.ts lines
224-237): whether some `job_applications` document matches the
`(jobId, laborId)` pair. -/
def hasAlreadyApplied (st : Store) (jobId laborId : String) : Bool :=
  st.applications.any (fun a => a.jobId == jobId && a.laborId == laborId)

/-- Result shape `{ success, message }` returned by `applyForJob`. -/
structure ApplyResult where
  success : Bool
  message : String
deriving DecidableEq, Repr

/-- The template literal of the safety refusal, with `newTotal`
interpolated. -/
def safetyMessage (newTotal : Nat) : String :=
  "Health Safety Warning: This job would put you at " ++ toString newTotal ++
    " hours this week. The limit is 50 hours."

def alreadyAppliedMessage : String := "You have already applied for this job!"

def capacityMessage : String :=
  "Sorry, this job has reached its maximum number of applicants."

def systemErrorMessage : String := "System error. Please try again."

def successMessage : String := "Job booked successfully! You\x27re all set."

/-- Which of the three awaited writes of the commit phase reject
(model of storage failures inside the `try` block). -/
structure WriteFaults where
  applicationWrite : Bool
  bookingWrite : Bool
  jobUpdate : Bool
deriving DecidableEq, Repr

def noFaults : WriteFaults := ⟨false, false, false⟩

/-- Step 6 of `applyForJob`: `updateDoc(jobRef, { laborersApplied:
increment(1), ...(updatedAppliedCount >= job.laborersRequired && {
status: "filled", isListed: false }) })`.  The increment is applied to
the STORED counter, while the `filled` condition uses
`updatedAppliedCount = job.laborersApplied + 1` computed from the
caller-supplied snapshot `job`. -/
def updateJobOnApply (job : JobListing) (j : JobListing) : JobListing :=
  if j.id == job.id then
    let j' := { j with laborersApplied := j.laborersApplied + 1 }
    if job.laborersApplied + 1 ≥ job.laborersRequired then
      { j' with status := .Filled, isListed := false }
    else j'
  else j

/-- The `job_applications` document created in step 4 of `applyForJob`. -/
def newApplication (job : JobListing) (laborId : String) (now : Int) : JobApplication :=
  { jobId := job.id, laborId := laborId, supervisorId := job.supervisorId,
    status := .confirmed, appliedAt := now }

/-- The `bookings` document created in step 5 of `applyForJob`: a
snapshot of the posting's title, location, date, duration and wage. -/
def newBooking (job : JobListing) (laborId : String) (now : Int) : Booking :=
  { jobId := job.id, laborId := laborId, supervisorId := job.supervisorId,
    jobTitle := job.title, locationName := job.locationName,
    jobDate := job.requiredDate, durationHours := job.durationHours,
    wageAmount := job.wageAmount, status := .confirmed, createdAt := some now }

/-- Embedding of `applyForJob` (src/lib/firestore.ts lines 240-327),
parameterised by the write faults of the commit phase.  Checks run in
source order: duplicate application, weekly 50-hour limit, capacity
(against the snapshot `job` passed by the caller).  The commit phase is
the source `try` block: each write that has already executed when a
later one rejects stays persisted, and the `catch` returns the generic
system-error result.  `updateDoc` on a job id absent from the store
rejects (Firestore updateDoc semantics), which is the same catch path. -/
def applyForJobF (f : WriteFaults) (st : Store) (job : JobListing) (laborId : String)
    (now : Int) : ApplyResult × Store :=
  if hasAlreadyApplied st job.id laborId then
    ({ success := false, message := alreadyAppliedMessage }, st)
  else
    let currentHours := getLaborWeeklyHours st laborId job.requiredDate
    let newTotal := currentHours + job.durationHours
    if newTotal > 50 then
      ({ success := false, message := safetyMessage newTotal }, st)
    else if job.laborersApplied ≥ job.laborersRequired then
      ({ success := false, message := capacityMessage }, st)
    else if f.applicationWrite then
      ({ success := false, message := systemErrorMessage }, st)
    else
      let app := newApplication job laborId now
      let st1 := { st with applications := st.applications ++ [app] }
      if f.bookingWrite then
        ({ success := false, message := systemErrorMessage }, st1)
      else
        let bk := newBooking job laborId now
        let st2 := { st1 with bookings := st1.bookings ++ [bk] }
        if f.jobUpdate || !(st2.jobs.any (fun j => j.id == job.id)) then
          ({ success := false, message := systemErrorMessage }, st2)
        else
          let st3 := { st2 with jobs := st2.jobs.map (updateJobOnApply job) }
          ({ success := true, message := successMessage }, st3)

/-- `applyForJob` as the caller sees it: no storage fault. -/
def applyForJob (st : Store) (job : JobListing) (laborId : String)
    (now : Int) : ApplyResult × Store :=
  applyForJobF noFaults st job laborId now

/-- Embedding of `bookJob` (src/lib/firestore.ts lines 330-336): the
deprecated entry point; its body is `return await applyForJob(job,
laborId)`. -/
def bookJob (st : Store) (job : JobListing) (laborId : String)
    (now : Int) : ApplyResult × Store :=
  applyForJob st job laborId now

/-! ## Job feed -/

/-- Embedding of `updateExpiredJobs` (src/lib/firestore.ts lines
104-122): every job with `status == "open"` and `now > expiresAt`
(strict) is rewritten with `status: "expired"`. -/
def updateExpiredJobs (st : Store) (now : Int) : Store :=
  { st with
    jobs := st.jobs.map (fun j =>
      if j.status == JobStatus.Open && now > j.expiresAt then
        { j with status := .Expired }
      else j) }

/-- The comparator `(a, b) => bTime - aTime` with
`xTime = x.createdAt?.toMillis?.() || 0`: `a` precedes `b` when
`bTime ≤ aTime` (descending by creation time; JS `Array.prototype.sort`
is stable). -/
def createdDesc (a b : JobListing) : Prop :=
  b.createdAt.getD 0 ≤ a.createdAt.getD 0

instance : DecidableRel createdDesc := fun a b =>
  inferInstanceAs (Decidable (b.createdAt.getD 0 ≤ a.createdAt.getD 0))

instance : IsTotal JobListing createdDesc :=
  ⟨fun a b => le_total (b.createdAt.getD 0) (a.createdAt.getD 0)⟩

instance : IsTrans JobListing createdDesc :=
  ⟨fun _ _ _ h1 h2 => le_trans h2 h1⟩

/-- Embedding of `getOpenJobs` (src/lib/firestore.ts lines 137-164):
first runs the expiration sweep, then selects jobs with
`status == "open" && isListed == true`, then keeps those with
`new Date(job.expiresAt) > now` (strict), and sorts descending by
creation time.  Returns the projected feed together with the post-sweep
store. -/
def getOpenJobs (st : Store) (now : Int) : List JobListing × Store :=
  let st1 := updateExpiredJobs st now
  let jobs := st1.jobs.filter (fun j => j.status == JobStatus.Open && j.isListed)
  let validJobs := jobs.filter (fun j => j.expiresAt > now)
  (validJobs.insertionSort createdDesc, st1)

/-! ## Helper lemmas about the ledger and the workflow -/

/-- Membership of a parsed (midnight) date in a valid Monday-to-Sunday
window reduces to day-number bounds. -/
theorem dateInBounds_window {bn m : Int} :
    dateInBounds (.valid ⟨bn, 0⟩)
      { start := .valid ⟨m, 0⟩, endW := .valid ⟨m + 6, 86399999⟩ } = true ↔
      m ≤ bn ∧ bn ≤ m + 6 := by
  simp only [dateInBounds, JSDate.toMillis, msPerDay, Bool.and_eq_true, decide_eq_true_eq]
  omega

/-- The weekly sum only reads the bookings collection. -/
theorem getLaborWeeklyHours_eq_of_bookings {st st' : Store} (l t : String)
    (h : st'.bookings = st.bookings) :
    getLaborWeeklyHours st' l t = getLaborWeeklyHours st l t := by
  unfold getLaborWeeklyHours
  rw [h]

/-- The weekly sum only depends on the target date through its week
window. -/
theorem getLaborWeeklyHours_congr {st : Store} {l t t' : String}
    (h : getWeekBounds t = getWeekBounds t') :
    getLaborWeeklyHours st l t = getLaborWeeklyHours st l t' := by
  unfold getLaborWeeklyHours
  rw [h]

/-- Appending one booking adds its hours exactly when it matches the
worker, is confirmed, and falls inside the target week. -/
theorem getLaborWeeklyHours_append {st : Store} {bk : Booking} (l t : String) :
    getLaborWeeklyHours { st with bookings := st.bookings ++ [bk] } l t =
      getLaborWeeklyHours st l t +
        (if bk.laborId == l && bk.status == BookingStatus.confirmed &&
            dateInBounds (parseBookDate bk.jobDate) (getWeekBounds t)
          then bk.durationHours else 0) := by
  unfold getLaborWeeklyHours
  simp only [List.filter_append, List.map_append, List.sum_append]
  split <;> simp_all [List.filter_singleton]

/-- A store without bookings has a zero weekly ledger. -/
theorem getLaborWeeklyHours_nil {st : Store} (h : st.bookings = []) (l t : String) :
    getLaborWeeklyHours st l t = 0 := by
  simp [getLaborWeeklyHours, h]

/-- Duplicate branch: the call fails with the already-applied message and
leaves the store untouched, under any fault pattern. -/
theorem applyForJobF_already {f : WriteFaults} {st : Store} {job : JobListing}
    {laborId : String} {now : Int}
    (h : hasAlreadyApplied st job.id laborId = true) :
    applyForJobF f st job laborId now =
      ({ success := false, message := alreadyAppliedMessage }, st) := by
  unfold applyForJobF
  simp [h]

/-- Safety branch: with no duplicate and a projected total over 50
hours, the call fails with the safety message carrying that total, and
leaves the store untouched, under any fault pattern. -/
theorem applyForJobF_safety {f : WriteFaults} {st : Store} {job : JobListing}
    {laborId : String} {now : Int}
    (h1 : hasAlreadyApplied st job.id laborId = false)
    (h2 : getLaborWeeklyHours st laborId job.requiredDate + job.durationHours > 50) :
    applyForJobF f st job laborId now =
      ({ success := false,
         message := safetyMessage
           (getLaborWeeklyHours st laborId job.requiredDate + job.durationHours) }, st) := by
  unfold applyForJobF
  simp [h1, h2]

/-- Capacity branch: with no duplicate, a safe total, and a full
snapshot, the call fails with the capacity message, untouched store. -/
theorem applyForJobF_capacity {f : WriteFaults} {st : Store} {job : JobListing}
    {laborId : String} {now : Int}
    (h1 : hasAlreadyApplied st job.id laborId = false)
    (h2 : ¬ getLaborWeeklyHours st laborId job.requiredDate + job.durationHours > 50)
    (h3 : job.laborersApplied ≥ job.laborersRequired) :
    applyForJobF f st job laborId now =
      ({ success := false, message := capacityMessage }, st) := by
  unfold applyForJobF
  simp [h1, h2, h3]

/-- Full-commit equation: when every check passes and no write faults,
the result is success and all three writes are applied. -/
theorem applyForJobF_success {f : WriteFaults} {st : Store} {job : JobListing}
    {laborId : String} {now : Int}
    (h1 : hasAlreadyApplied st job.id laborId = false)
    (h2 : ¬ getLaborWeeklyHours st laborId job.requiredDate + job.durationHours > 50)
    (h3 : ¬ job.laborersApplied ≥ job.laborersRequired)
    (hf : f = noFaults)
    (hid : st.jobs.any (fun j => j.id == job.id) = true) :
    applyForJobF f st job laborId now =
      ({ success := true, message := successMessage },
       { jobs := st.jobs.map (updateJobOnApply job),
         applications := st.applications ++ [newApplication job laborId now],
         bookings := st.bookings ++ [newBooking job laborId now],
         systemRates := st.systemRates }) := by
  subst hf
  unfold applyForJobF noFaults
  simp [h1, h2, h3, hid]

/-- The bookings written by any `applyForJob` run: either nothing, or
exactly the snapshot booking, and in the latter case the safety check
had passed for it. -/
theorem applyForJobF_bookings_cases (f : WriteFaults) (st : Store) (job : JobListing)
    (laborId : String) (now : Int) :
    (applyForJobF f st job laborId now).2.bookings = st.bookings ∨
      ((applyForJobF f st job laborId now).2.bookings =
          st.bookings ++ [newBooking job laborId now] ∧
        getLaborWeeklyHours st laborId job.requiredDate + job.durationHours ≤ 50) := by
  simp only [applyForJobF]
  split_ifs <;> first | exact Or.inl rfl | exact Or.inr ⟨rfl, by omega⟩

/-- The applications written by any `applyForJob` run: either nothing,
or exactly the new application record. -/
theorem applyForJobF_applications_cases (f : WriteFaults) (st : Store) (job : JobListing)
    (laborId : String) (now : Int) :
    (applyForJobF f st job laborId now).2.applications = st.applications ∨
      (applyForJobF f st job laborId now).2.applications =
        st.applications ++ [newApplication job laborId now] := by
  simp only [applyForJobF]
  split_ifs <;> first | exact Or.inl rfl | exact Or.inr rfl

/-- The 50-hour safety invariant for one worker: the ledger total is at
most 50 for every target date (hence for every Monday-to-Sunday
window). -/
def capUnder50 (l : String) (st : Store) : Prop :=
  ∀ t : String, getLaborWeeklyHours st l t ≤ 50

theorem getWeekBounds_unparseable {s : String} (h : parseDateOnly s = none) :
    getWeekBounds s = { start := .invalid, endW := .invalid } := by
  simp [getWeekBounds, h]

theorem dateInBounds_invalid_bounds (d : JSDateV) :
    dateInBounds d { start := .invalid, endW := .invalid } = false := by
  cases d <;> rfl

theorem dateInBounds_invalid_date (b : WeekBounds) :
    dateInBounds .invalid b = false := by
  obtain ⟨bs, be⟩ := b
  cases bs <;> cases be <;> rfl

/-- Every `applyForJob` run, faulty or not, preserves the 50-hour
invariant of every worker: a booking is only ever written after the
safety check bounded its week by 50. -/
theorem capUnder50_preserved (f : WriteFaults) (st : Store) (job : JobListing)
    (laborId : String) (now : Int) (l : String) (h : capUnder50 l st) :
    capUnder50 l (applyForJobF f st job laborId now).2 := by
  intro t
  rcases applyForJobF_bookings_cases f st job laborId now with hb | ⟨hb, hsafe⟩
  · rw [getLaborWeeklyHours_eq_of_bookings l t hb]
    exact h t
  · rw [@getLaborWeeklyHours_eq_of_bookings
      { st with bookings := st.bookings ++ [newBooking job laborId now] } _ l t hb]
    rw [getLaborWeeklyHours_append]
    split
    · rename_i hcond
      simp only [newBooking, Bool.and_eq_true, beq_iff_eq] at hcond
      obtain ⟨⟨hl, -⟩, hbound⟩ := hcond
      cases hp : parseDateOnly t with
      | none =>
        rw [getWeekBounds_unparseable hp, dateInBounds_invalid_bounds] at hbound
        exact absurd hbound (by simp)
      | some m =>
        rw [getWeekBounds_parse hp] at hbound
        cases hr : parseDateOnly job.requiredDate with
        | none =>
          rw [show parseBookDate job.requiredDate = .invalid from by
                simp [parseBookDate, hr],
              dateInBounds_invalid_date] at hbound
          exact absurd hbound (by simp)
        | some r =>
          rw [show parseBookDate job.requiredDate = .valid ⟨r, 0⟩ from by
                simp [parseBookDate, hr]] at hbound
          have hmem := dateInBounds_window.mp hbound
          have hmon : mondayOf r = mondayOf m := mondayOf_eq_of_mem_window hmem.1 hmem.2
          have hcongr : getLaborWeeklyHours st l t =
              getLaborWeeklyHours st l job.requiredDate := by
            refine getLaborWeeklyHours_congr ?_
            rw [getWeekBounds_parse hp, getWeekBounds_parse hr, hmon]
          subst hl
          simp only [newBooking]
          rw [hcongr]
          omega
    · simpa using h t

/-! ## C1 -/

/-- C1: weekly safety-cap enforcement.  First conjunct: when the
duplicate check passes (the spec runs the safety check as step 2, after
step 1) and the worker's current weekly hours for the job's week plus
the job's duration exceed 50, `applyForJob` fails with the safety
refusal carrying the projected total, and persists nothing.  Second
conjunct: every successful `applyForJob` preserves every worker's
50-hour bound in every Monday-to-Sunday window, so along any sequence of
successful calls the bound holds after each success. -/
theorem C1_weekly_safety_cap (st : Store) (job : JobListing) (laborId : String) (now : Int) :
    (hasAlreadyApplied st job.id laborId = false →
      getLaborWeeklyHours st laborId job.requiredDate + job.durationHours > 50 →
      applyForJob st job laborId now =
        ({ success := false,
           message := safetyMessage
             (getLaborWeeklyHours st laborId job.requiredDate + job.durationHours) }, st))
    ∧ (∀ l, capUnder50 l st →
        (applyForJob st job laborId now).1.success = true →
        capUnder50 l (applyForJob st job laborId now).2) := by
  constructor
  · intro h1 h2
    exact applyForJobF_safety h1 h2
  · intro l h _
    exact capUnder50_preserved noFaults st job laborId now l h

def jobC1 : JobListing :=
  { id := "j1", supervisorId := "s1", title := "Painting", locationName := "Jayanagar",
    description := "paint", wageType := .daily, wageAmount := 700,
    requiredDate := "2025-12-12", durationHours := 4, laborersRequired := 2,
    laborersApplied := 0, status := .Open, isListed := true,
    expiresAt := 1765862400000, createdAt := some 1 }

def bkC1 : Booking :=
  { jobId := "j0", laborId := "w1", supervisorId := "s0", jobTitle := "Masonry",
    locationName := "Yelahanka", jobDate := "2025-12-10", durationHours := 47,
    wageAmount := 800, status := .confirmed, createdAt := some 0 }

def stC1 : Store :=
  { jobs := [jobC1], applications := [], bookings := [bkC1], systemRates := none }

def jobC1b : JobListing := { jobC1 with id := "j2", durationHours := 8 }

def stC1b : Store :=
  { jobs := [jobC1b], applications := [], bookings := [], systemRates := none }

/-- Witness for C1: a worker with 47 confirmed hours in the week of
2025-12-08 is refused a 4-hour job in that week with the 51-hour
message and an unchanged store; and a successful application from an
empty ledger preserves the 50-hour invariant. -/
theorem C1_weekly_safety_cap_witness :
    (applyForJob stC1 jobC1 "w1" 0 =
      ({ success := false, message := safetyMessage 51 }, stC1))
    ∧ (applyForJob stC1b jobC1b "w1" 0).1.success = true
    ∧ capUnder50 "w1" (applyForJob stC1b jobC1b "w1" 0).2 := by
  refine ⟨?_, by decide, ?_⟩
  · have h := (C1_weekly_safety_cap stC1 jobC1 "w1" 0).1 (by decide) (by decide)
    rw [show getLaborWeeklyHours stC1 "w1" jobC1.requiredDate + jobC1.durationHours = 51
      from by decide] at h
    exact h
  · refine (C1_weekly_safety_cap stC1b jobC1b "w1" 0).2 "w1" ?_ (by decide)
    intro t
    rw [getLaborWeeklyHours_nil rfl]
    omega

/-! ## C5 -/

/-- C5: week-bounds correctness.  For every parseable date string with
epoch day `n`, the window starts at `mondayOf n` (back 6 days from a
Sunday, back `w - 1` days from any other weekday `w`) at 00:00:00.000
and ends 6 days later at 23:59:59.999; the start is a Monday containing
`n` in its 7-day span and the end a Sunday.  The month/year boundary
example: Monday 2025-12-29 yields the window 2025-12-29 to
2026-01-04. -/
theorem C5_week_bounds_correct :
    (∀ (s : String) (n : Int), parseDateOnly s = some n →
      getWeekBounds s =
        { start := .valid ⟨mondayOf n, 0⟩, endW := .valid ⟨mondayOf n + 6, 86399999⟩ } ∧
      jsWeekday (mondayOf n) = 1 ∧ mondayOf n ≤ n ∧ n ≤ mondayOf n + 6 ∧
      jsWeekday (mondayOf n + 6) = 0)
    ∧ getWeekBounds "2025-12-29" =
        { start := .valid ⟨daysFromCivil 2025 12 29, 0⟩,
          endW := .valid ⟨daysFromCivil 2026 1 4, 86399999⟩ } := by
  constructor
  · intro s n h
    exact ⟨getWeekBounds_parse h, jsWeekday_mondayOf n, (mondayOf_le_self n).1,
      (mondayOf_le_self n).2, jsWeekday_mondayOf_add_six n⟩
  · decide

/-- Witness for C5 at the concrete parseable input 2025-12-29 (epoch
day 20451). -/
theorem C5_week_bounds_correct_witness :
    getWeekBounds "2025-12-29" =
      { start := .valid ⟨mondayOf 20451, 0⟩, endW := .valid ⟨mondayOf 20451 + 6, 86399999⟩ } ∧
    jsWeekday (mondayOf 20451) = 1 := by
  have h := C5_week_bounds_correct.1 "2025-12-29" 20451 (by decide)
  exact ⟨h.1, h.2.1⟩

/-! ## C9 -/

/-- The error the spec names for unparseable `weekBounds` input; no such
error exists anywhere in the source. -/
inductive InvalidDateError where
  | invalidDate
deriving DecidableEq, Repr

/-- Modelled from the spec (section 4.1 failure mode, used only to
exhibit the divergence): "fails with `InvalidDateError` on unparseable
input", returning the Monday-to-Sunday window otherwise. -/
def weekBoundsSpec (s : String) : Except InvalidDateError WeekBounds :=
  match parseDateOnly s with
  | some n =>
    .ok { start := .valid ⟨mondayOf n, 0⟩, endW := .valid ⟨mondayOf n + 6, 86399999⟩ }
  | none => .error .invalidDate

/-- Counterexample for C9: on the unparseable input "garbage" the code
does not fail at all — `getWeekBounds` returns normally with Invalid
Date (NaN) bounds, while the claimed contract demands an
`InvalidDateError` failure. -/
theorem C9_counterexample :
    parseDateOnly "garbage" = none ∧
    getWeekBounds "garbage" = { start := .invalid, endW := .invalid } ∧
    weekBoundsSpec "garbage" = .error InvalidDateError.invalidDate := by
  refine ⟨by decide, by decide, rfl⟩

/-- C9 (amended): `getWeekBounds` is pure, deterministic and total: it
returns the Monday-to-Sunday window for every parseable date string,
and on unparseable input it does not fail with `InvalidDateError` (no
such error exists in the code) — it silently returns Invalid Date
bounds. -/
theorem C9_week_bounds_totality (s : String) :
    (∀ n : Int, parseDateOnly s = some n →
      getWeekBounds s =
        { start := .valid ⟨mondayOf n, 0⟩, endW := .valid ⟨mondayOf n + 6, 86399999⟩ })
    ∧ (parseDateOnly s = none →
        getWeekBounds s = { start := .invalid, endW := .invalid }) :=
  ⟨fun _ h => getWeekBounds_parse h, fun h => getWeekBounds_unparseable h⟩

/-- Witness for C9 on a parseable and an unparseable input. -/
theorem C9_week_bounds_totality_witness :
    getWeekBounds "2025-12-29" =
      { start := .valid ⟨mondayOf 20451, 0⟩, endW := .valid ⟨mondayOf 20451 + 6, 86399999⟩ } ∧
    getWeekBounds "garbage" = { start := .invalid, endW := .invalid } :=
  ⟨(C9_week_bounds_totality "2025-12-29").1 20451 (by decide),
   (C9_week_bounds_totality "garbage").2 (by decide)⟩

/-! ## C6 -/

/-- C6: wage-floor computation.  Hourly postings are floored at
`minWagePerHour`, daily postings at `minWagePerHour * durationHours`;
the submission gate accepts exactly when the offer is at least the
floor; and the four concrete instances of the claim hold. -/
theorem C6_wage_floor :
    (∀ (r : SystemRates) (d : Nat),
      calculateMinWageRequired (some r) WageType.hourly d = r.minWagePerHour ∧
      calculateMinWageRequired (some r) WageType.daily d = r.minWagePerHour * d)
    ∧ (∀ offered minimum : Nat,
        wageCheckPasses offered minimum = decide (offered ≥ minimum))
    ∧ calculateMinWageRequired (some { minWagePerHour := 60, lastUpdated := 0 })
        WageType.daily 8 = 480
    ∧ calculateMinWageRequired (some { minWagePerHour := 60, lastUpdated := 0 })
        WageType.hourly 8 = 60
    ∧ wageCheckPasses 480 480 = true
    ∧ wageCheckPasses 479 480 = false := by
  refine ⟨fun r d => ⟨rfl, rfl⟩, fun o m => ?_, by decide, by decide, by decide, by decide⟩
  unfold wageCheckPasses
  rw [← decide_not]
  exact decide_eq_decide.mpr (by omega)

/-! ## C10 -/

/-- C10: when the `system_config/rates` document does not exist,
`getSystemRates` does not fail: it returns the built-in default of 60
rupees per hour with a fresh `lastUpdated` timestamp. -/
theorem C10_default_rates (st : Store) (now : Int) (h : st.systemRates = none) :
    getSystemRates st now = { minWagePerHour := 60, lastUpdated := now } := by
  simp [getSystemRates, h]

/-- Witness for C10 on an unseeded store. -/
theorem C10_default_rates_witness :
    getSystemRates { jobs := [], applications := [], bookings := [], systemRates := none }
      12345 = { minWagePerHour := 60, lastUpdated := 12345 } :=
  C10_default_rates _ 12345 rfl

/-- A successful run wrote exactly the new application. -/
theorem applyForJobF_success_apps {f : WriteFaults} {st : Store} {job : JobListing}
    {laborId : String} {now : Int}
    (h : (applyForJobF f st job laborId now).1.success = true) :
    (applyForJobF f st job laborId now).2.applications =
      st.applications ++ [newApplication job laborId now] := by
  simp only [applyForJobF] at h ⊢
  split_ifs at h ⊢
  simp_all

/-- A successful run applied the job update to the jobs collection. -/
theorem applyForJobF_success_jobs {f : WriteFaults} {st : Store} {job : JobListing}
    {laborId : String} {now : Int}
    (h : (applyForJobF f st job laborId now).1.success = true) :
    (applyForJobF f st job laborId now).2.jobs = st.jobs.map (updateJobOnApply job) := by
  simp only [applyForJobF] at h ⊢
  split_ifs at h ⊢
  simp_all

/-- A successful run passed the snapshot capacity check. -/
theorem applyForJobF_success_capacity {f : WriteFaults} {st : Store} {job : JobListing}
    {laborId : String} {now : Int}
    (h : (applyForJobF f st job laborId now).1.success = true) :
    job.laborersApplied < job.laborersRequired := by
  simp only [applyForJobF] at h
  split_ifs at h
  simp_all

/-- The jobs collection after any run: untouched, or the increment map
of a run whose snapshot capacity check passed. -/
theorem applyForJobF_jobs_cases (f : WriteFaults) (st : Store) (job : JobListing)
    (laborId : String) (now : Int) :
    (applyForJobF f st job laborId now).2.jobs = st.jobs ∨
      ((applyForJobF f st job laborId now).2.jobs = st.jobs.map (updateJobOnApply job) ∧
        job.laborersApplied < job.laborersRequired) := by
  simp only [applyForJobF]
  split_ifs <;> first | exact Or.inl rfl | exact Or.inr ⟨rfl, by omega⟩

/-- An existing `(jobId, laborId)` application survives every later
`applyForJob` call: applications are only ever appended. -/
theorem hasAlreadyApplied_mono (f : WriteFaults) (st : Store) (job : JobListing)
    (laborId : String) (now : Int) (a b : String)
    (h : hasAlreadyApplied st a b = true) :
    hasAlreadyApplied (applyForJobF f st job laborId now).2 a b = true := by
  rcases applyForJobF_applications_cases f st job laborId now with hc | hc <;>
    · simp only [hasAlreadyApplied] at h ⊢
      rw [hc]
      simp [h, List.any_append]

/-- `updateJobOnApply` never changes a job's id. -/
theorem updateJobOnApply_id (job j : JobListing) : (updateJobOnApply job j).id = j.id := by
  unfold updateJobOnApply
  split_ifs <;> rfl

/-! ## C4 -/

/-- C4: no duplicate application.  When a JobApplication for
`(jobId, laborId)` already exists, `applyForJob` fails with the
already-applied refusal and touches nothing; every success persists the
pair's application; and an existing application survives every later
`applyForJob` call — hence along any sequence of calls a pair succeeds
at most once and every call after its success fails with the
already-applied refusal. -/
theorem C4_no_duplicate_application (st : Store) (job : JobListing) (laborId : String)
    (now : Int) :
    (hasAlreadyApplied st job.id laborId = true →
      applyForJob st job laborId now =
        ({ success := false, message := alreadyAppliedMessage }, st))
    ∧ ((applyForJob st job laborId now).1.success = true →
        hasAlreadyApplied (applyForJob st job laborId now).2 job.id laborId = true)
    ∧ (∀ (job2 : JobListing) (l2 : String) (now2 : Int) (a b : String),
        hasAlreadyApplied st a b = true →
        hasAlreadyApplied (applyForJob st job2 l2 now2).2 a b = true) := by
  refine ⟨fun h => applyForJobF_already h, fun h => ?_, fun job2 l2 now2 a b h =>
    hasAlreadyApplied_mono noFaults st job2 l2 now2 a b h⟩
  simp only [applyForJob] at h ⊢
  rw [hasAlreadyApplied, applyForJobF_success_apps h]
  simp [newApplication, List.any_append]

def jobC4 : JobListing :=
  { id := "j1", supervisorId := "s1", title := "Cleaning", locationName := "Marathahalli",
    description := "site cleanup", wageType := .daily, wageAmount := 600,
    requiredDate := "2025-12-18", durationHours := 8, laborersRequired := 4,
    laborersApplied := 0, status := .Open, isListed := true,
    expiresAt := 1766380800000, createdAt := some 2 }

def stC4 : Store :=
  { jobs := [jobC4], applications := [], bookings := [], systemRates := none }

/-- Witness for C4: from a clean store, the first application for
`("j1", "w1")` succeeds and persists the pair; the immediate retry
fails with the already-applied refusal and changes nothing. -/
theorem C4_no_duplicate_application_witness :
    hasAlreadyApplied (applyForJob stC4 jobC4 "w1" 0).2 jobC4.id "w1" = true ∧
    applyForJob (applyForJob stC4 jobC4 "w1" 0).2 jobC4 "w1" 1 =
      ({ success := false, message := alreadyAppliedMessage },
       (applyForJob stC4 jobC4 "w1" 0).2) := by
  have h2 := (C4_no_duplicate_application stC4 jobC4 "w1" 0).2.1 (by decide)
  exact ⟨h2, (C4_no_duplicate_application (applyForJob stC4 jobC4 "w1" 0).2 jobC4 "w1" 1).1 h2⟩

/-! ## C8 -/

def jobC8 : JobListing :=
  { id := "j1", supervisorId := "s1", title := "Plumbing", locationName := "Koramangala",
    description := "pipes", wageType := .daily, wageAmount := 900,
    requiredDate := "2025-12-15", durationHours := 9, laborersRequired := 2,
    laborersApplied := 0, status := .Open, isListed := true,
    expiresAt := 1766121600000, createdAt := some 3 }

def stC8 : Store :=
  { jobs := [jobC8],
    applications := [{ jobId := "j1", laborId := "w1", supervisorId := "s1",
                       status := .confirmed, appliedAt := 0 }],
    bookings := [], systemRates := none }

def stC8b : Store :=
  { jobs := [jobC8], applications := [], bookings := [], systemRates := none }

/-- Counterexample for C8: `bookJob` does NOT skip the application
bookkeeping.  With an existing application for the pair it fails the
duplicate check (step 1, which the claim says it does not perform), and
from a clean store it records a JobApplication (which the claim says it
never does). -/
theorem C8_counterexample :
    (bookJob stC8 jobC8 "w1" 5).1 =
      { success := false, message := alreadyAppliedMessage } ∧
    (bookJob stC8b jobC8 "w1" 5).2.applications = [newApplication jobC8 "w1" 5] := by
  refine ⟨by decide, by decide⟩

/-- C8 (amended): `bookJob` is a deprecated alias that delegates to the
FULL `applyForJob` workflow — steps 1 to 4 including the
duplicate-application check and the JobApplication write — rather than
steps 2 to 4 only. -/
theorem C8_bookJob_full_alias (st : Store) (job : JobListing) (laborId : String) (now : Int) :
    bookJob st job laborId now = applyForJob st job laborId now
    ∧ (hasAlreadyApplied st job.id laborId = true →
        bookJob st job laborId now =
          ({ success := false, message := alreadyAppliedMessage }, st))
    ∧ ((bookJob st job laborId now).1.success = true →
        hasAlreadyApplied (bookJob st job laborId now).2 job.id laborId = true) := by
  refine ⟨rfl, fun h => applyForJobF_already h, fun h => ?_⟩
  simp only [bookJob, applyForJob] at h ⊢
  rw [hasAlreadyApplied, applyForJobF_success_apps h]
  simp [newApplication, List.any_append]

/-- Witness for C8: on the store already holding an application for the
pair, `bookJob` fails with the already-applied refusal. -/
theorem C8_bookJob_full_alias_witness :
    bookJob stC8 jobC8 "w1" 5 =
      ({ success := false, message := alreadyAppliedMessage }, stC8) :=
  (C8_bookJob_full_alias stC8 jobC8 "w1" 5).2.1 (by decide)

/-! ## C2 -/

def jobC2 : JobListing :=
  { id := "j1", supervisorId := "s1", title := "Electrical", locationName := "BTM Layout",
    description := "wiring", wageType := .daily, wageAmount := 1000,
    requiredDate := "2025-12-17", durationHours := 9, laborersRequired := 2,
    laborersApplied := 0, status := .Open, isListed := true,
    expiresAt := 1766294400000, createdAt := some 4 }

def stC2 : Store :=
  { jobs := [jobC2], applications := [], bookings := [], systemRates := none }

/-- Counterexample for C2: when the booking write rejects after the
application write succeeded, `applyForJob` reports a system error but
performs no rollback — the store then contains an Application with no
paired Booking, and the job counter is untouched. -/
theorem C2_counterexample :
    ((applyForJobF { applicationWrite := false, bookingWrite := true, jobUpdate := false }
        stC2 jobC2 "w1" 7).1.success = false) ∧
    (applyForJobF { applicationWrite := false, bookingWrite := true, jobUpdate := false }
        stC2 jobC2 "w1" 7).2.applications = [newApplication jobC2 "w1" 7] ∧
    (applyForJobF { applicationWrite := false, bookingWrite := true, jobUpdate := false }
        stC2 jobC2 "w1" 7).2.bookings = [] := by
  refine ⟨by decide, by decide, by decide⟩

/-- C2 (amended): the commit phase performs no rollback.  When the
application write itself rejects nothing is persisted; when the booking
write rejects the already-written Application persists alone (an orphan
with no paired Booking) under a system-error result; and only a
fault-free run yields success, with all of Application, Booking and the
counter update applied. -/
theorem C2_no_rollback (f : WriteFaults) (st : Store) (job : JobListing) (laborId : String)
    (now : Int)
    (h1 : hasAlreadyApplied st job.id laborId = false)
    (h2 : ¬ getLaborWeeklyHours st laborId job.requiredDate + job.durationHours > 50)
    (h3 : ¬ job.laborersApplied ≥ job.laborersRequired)
    (hid : st.jobs.any (fun j => j.id == job.id) = true) :
    (f.applicationWrite = true →
      applyForJobF f st job laborId now =
        ({ success := false, message := systemErrorMessage }, st))
    ∧ (f.applicationWrite = false → f.bookingWrite = true →
        applyForJobF f st job laborId now =
          ({ success := false, message := systemErrorMessage },
           { st with applications := st.applications ++ [newApplication job laborId now] }))
    ∧ (f = noFaults →
        applyForJobF f st job laborId now =
          ({ success := true, message := successMessage },
           { jobs := st.jobs.map (updateJobOnApply job),
             applications := st.applications ++ [newApplication job laborId now],
             bookings := st.bookings ++ [newBooking job laborId now],
             systemRates := st.systemRates })) := by
  refine ⟨fun hfa => ?_, fun hfa hfb => ?_, fun hf => applyForJobF_success h1 h2 h3 hf hid⟩
  · simp only [applyForJobF]
    simp [h1, h2, h3, hfa]
  · simp only [applyForJobF]
    simp [h1, h2, h3, hfa, hfb]

/-- Witness for C2: the booking-write fault on the concrete clean store
leaves exactly the orphan Application behind. -/
theorem C2_no_rollback_witness :
    applyForJobF { applicationWrite := false, bookingWrite := true, jobUpdate := false }
        stC2 jobC2 "w1" 7 =
      ({ success := false, message := systemErrorMessage },
       { stC2 with applications := stC2.applications ++ [newApplication jobC2 "w1" 7] }) :=
  (C2_no_rollback { applicationWrite := false, bookingWrite := true, jobUpdate := false }
    stC2 jobC2 "w1" 7 (by decide) (by decide) (by decide) (by decide)).2.1 rfl rfl

/-! ## C3 -/

/-- The capacity invariant of spec section 3: no posting's counter
exceeds its requirement. -/
def capacityOK (st : Store) : Prop :=
  ∀ j ∈ st.jobs, j.laborersApplied ≤ j.laborersRequired

def jobC3 : JobListing :=
  { id := "j1", supervisorId := "s1", title := "Gardening", locationName := "Indiranagar",
    description := "landscaping", wageType := .daily, wageAmount := 650,
    requiredDate := "2025-12-19", durationHours := 8, laborersRequired := 1,
    laborersApplied := 0, status := .Open, isListed := true,
    expiresAt := 1766467200000, createdAt := some 6 }

def stC3 : Store :=
  { jobs := [jobC3], applications := [], bookings := [], systemRates := none }

/-- Counterexample for C3: two workers apply with the same snapshot of a
1-slot posting (the second snapshot is stale, exactly the read a second
browser still holds after the first success).  Both calls succeed, and
the reached store has `laborersApplied = 2 > 1 = laborersRequired`: the
claimed invariant fails on a reachable state. -/
theorem C3_counterexample :
    (applyForJob stC3 jobC3 "w1" 0).1.success = true ∧
    (applyForJob (applyForJob stC3 jobC3 "w1" 0).2 jobC3 "w2" 1).1.success = true ∧
    ((applyForJob (applyForJob stC3 jobC3 "w1" 0).2 jobC3 "w2" 1).2.jobs.any
      (fun j => j.laborersApplied > j.laborersRequired)) = true := by
  refine ⟨by decide, by decide, by decide⟩

/-- C3 (amended): the capacity invariant holds when every `applyForJob`
call receives the job's current store record (a fresh snapshot): the
counter never exceeds the requirement, and when a success makes the
counter reach the requirement the posting flips to `filled` and is
unlisted.  (With a stale snapshot the counter can overshoot, as the
counterexample shows.) -/
theorem C3_capacity_fresh_snapshot (st : Store) (job : JobListing) (laborId : String)
    (now : Int)
    (hnd : (st.jobs.map (fun j => j.id)).Nodup)
    (hmem : job ∈ st.jobs)
    (hcap : capacityOK st) :
    capacityOK (applyForJob st job laborId now).2
    ∧ ((applyForJob st job laborId now).1.success = true →
        job.laborersApplied + 1 = job.laborersRequired →
        ∀ j ∈ (applyForJob st job laborId now).2.jobs, j.id = job.id →
          j.status = .Filled ∧ j.isListed = false) := by
  have hinj := List.inj_on_of_nodup_map hnd
  constructor
  · rcases applyForJobF_jobs_cases noFaults st job laborId now with hc | ⟨hc, hlt⟩
    · intro j hj
      rw [applyForJob, hc] at hj
      exact hcap j hj
    · intro j hj
      rw [applyForJob, hc] at hj
      obtain ⟨a, ha, rfl⟩ := List.mem_map.mp hj
      unfold updateJobOnApply
      split_ifs with hida hfull
      · have : a = job := hinj ha hmem (by simpa using hida)
        subst this
        simpa using hlt
      · have : a = job := hinj ha hmem (by simpa using hida)
        subst this
        simpa using hlt
      · exact hcap a ha
  · intro hs hfull j hj hid
    rw [applyForJob, applyForJobF_success_jobs hs] at hj
    obtain ⟨a, ha, rfl⟩ := List.mem_map.mp hj
    rw [updateJobOnApply_id] at hid
    have : a = job := hinj ha hmem hid
    subst this
    unfold updateJobOnApply
    rw [if_pos (by simp), if_pos (by omega)]
    exact ⟨rfl, rfl⟩

/-- Witness for C3: one fresh-snapshot application to the 1-slot posting
keeps the invariant, and since it fills the last slot, the stored
posting ends `filled` and unlisted. -/
theorem C3_capacity_fresh_snapshot_witness :
    capacityOK (applyForJob stC3 jobC3 "w1" 0).2 ∧
    (∀ j ∈ (applyForJob stC3 jobC3 "w1" 0).2.jobs, j.id = jobC3.id →
      j.status = .Filled ∧ j.isListed = false) := by
  have hc : capacityOK stC3 := by
    intro j hj
    simp only [stC3, List.mem_singleton] at hj
    subst hj
    decide
  have h := C3_capacity_fresh_snapshot stC3 jobC3 "w1" 0 (by decide) (by decide) hc
  exact ⟨h.1, h.2 (by decide) (by decide)⟩

/-! ## C7 -/

def jobC7 : JobListing :=
  { id := "j1", supervisorId := "s1", title := "Helper", locationName := "Whitefield",
    description := "support", wageType := .daily, wageAmount := 750,
    requiredDate := "2025-12-14", durationHours := 9, laborersRequired := 4,
    laborersApplied := 0, status := .Open, isListed := true,
    expiresAt := 1000, createdAt := some 7 }

def stC7 : Store :=
  { jobs := [jobC7], applications := [], bookings := [], systemRates := none }

/-- Counterexample for C7: an open, listed posting whose `expiresAt`
equals the current instant satisfies the claimed predicate
`now <= expiresAt`, yet the feed excludes it — the code keeps only
postings with `expiresAt > now`, strict. -/
theorem C7_counterexample :
    jobC7.status = .Open ∧ jobC7.isListed = true ∧ ((1000 : Int) ≤ jobC7.expiresAt) ∧
    (getOpenJobs stC7 1000).1 = [] := by
  refine ⟨rfl, rfl, by decide, by decide⟩

/-- C7 (amended): `getOpenJobs` first triggers the expiration sweep and
returns exactly the stored postings with `status = open`, `isListed`,
and `expiresAt` STRICTLY after `now` (a posting expiring at the current
instant is excluded), ordered descending by creation time. -/
theorem C7_job_feed (st : Store) (now : Int) :
    (∀ j, j ∈ (getOpenJobs st now).1 ↔
      (j ∈ st.jobs ∧ j.status = .Open ∧ j.isListed = true ∧ now < j.expiresAt))
    ∧ (getOpenJobs st now).1.Sorted createdDesc
    ∧ (getOpenJobs st now).2 = updateExpiredJobs st now := by
  refine ⟨fun j => ?_, List.sorted_insertionSort createdDesc _, rfl⟩
  simp only [getOpenJobs]
  rw [List.mem_insertionSort]
  simp only [List.mem_filter, updateExpiredJobs, List.mem_map, Bool.and_eq_true, beq_iff_eq,
    decide_eq_true_eq]
  constructor
  · rintro ⟨⟨⟨a, ha, heq⟩, hst, hl⟩, hexp⟩
    by_cases hcond : a.status = JobStatus.Open ∧ now > a.expiresAt
    · rw [if_pos hcond] at heq
      subst heq
      simp at hst
    · rw [if_neg hcond] at heq
      subst heq
      exact ⟨ha, hst, hl, by omega⟩
  · rintro ⟨ha, hst, hl, hexp⟩
    refine ⟨⟨⟨j, ha, ?_⟩, hst, hl⟩, by omega⟩
    have hnot : ¬ (j.status = JobStatus.Open ∧ now > j.expiresAt) := by
      rintro ⟨-, hgt⟩
      omega
    rw [if_neg hnot]

/-- Witness for C7: at an instant strictly before `expiresAt` the
posting is in the feed. -/
theorem C7_job_feed_witness : jobC7 ∈ (getOpenJobs stC7 500).1 :=
  ((C7_job_feed stC7 500).1 jobC7).mpr ⟨by decide, rfl, rfl, by decide⟩

end NaukriBandhu
